import Mathlib

/-!
Verification of the ingest-and-clean pipeline of the NYC crime data
repository. The raw store, the clean store, the single-pass
validation/deduplication engine (`clean_2024_data` in `src/clean_data.py`)
and the resumable retrying downloader (`download_2024_crime_data_robust`
in `src/scripts/download_2024_robust.py`) are embedded as pure Lean
functions: the document store becomes lists of records, the streaming pass
becomes a fold over the raw list, and the network becomes an explicit
trace of fetch outcomes consumed by the pagination loop.
-/

namespace NycCrime

/-! ### Decimal parsing, modelling Python `float(...)`

The source converts the textual `latitude`/`longitude` fields with
`float(lat_str)` inside a `try` block; a `ValueError`/`TypeError` is a
parse failure. We model the conversion on plain signed decimal literals,
computing with exact rationals in place of IEEE doubles (the bounding-box
constants 40.4, 41.0, -74.4, -73.6 are decimal literals in the source, so
the comparisons below are the exact-arithmetic reading of the same
checks). A string `float` would accept but this grammar does not
(exponents, `inf`, surrounding whitespace) is treated as a parse
failure; no claim depends on such inputs. -/

def isDigitChar (c : Char) : Bool :=
  decide ('0' ≤ c) && decide (c ≤ '9')

def digitsToNat (l : List Char) : ℕ :=
  l.foldl (fun a c => 10 * a + (c.toNat - 48)) 0

/-- Parse an unsigned decimal literal into (all its digits read as one
integer, the number of fractional digits); the literal's value is then
`digits / 10 ^ fracDigits`. -/
def parseUnsignedDec (cs : List Char) : Option (ℕ × ℕ) :=
  let ip := cs.takeWhile isDigitChar
  let rest := cs.dropWhile isDigitChar
  match rest with
  | [] => if ip.isEmpty then none else some (digitsToNat ip, 0)
  | '.' :: fp =>
      if fp.all isDigitChar && !(ip.isEmpty && fp.isEmpty) then
        some (digitsToNat ip * 10 ^ fp.length + digitsToNat fp, fp.length)
      else none
  | _ => none

def parseDecimal (s : String) : Option (ℤ × ℕ) :=
  match s.toList with
  | '-' :: rest => (parseUnsignedDec rest).map (fun p => (-(p.1 : ℤ), p.2))
  | '+' :: rest => (parseUnsignedDec rest).map (fun p => ((p.1 : ℤ), p.2))
  | cs => (parseUnsignedDec cs).map (fun p => ((p.1 : ℤ), p.2))

def parseFloat (s : String) : Option ℚ :=
  (parseDecimal s).map (fun p => (p.1 : ℚ) / (10 : ℚ) ^ p.2)

/-! ### Data model

A raw complaint record is an arbitrary-shape document; the cleaning pass
reads exactly eight fields through `record.get(...)`, which yields `None`
for an absent key, so each field is an `Option String`. -/

structure RawRecord where
  cmplnt_num : Option String
  cmplnt_fr_dt : Option String
  cmplnt_fr_tm : Option String
  boro_nm : Option String
  latitude : Option String
  longitude : Option String
  ofns_desc : Option String
  law_cat_cd : Option String
  deriving DecidableEq, Repr

/-- A clean record: coordinates are stored as parsed numeric values, never
as text (`'latitude': lat  # Store as float` in the source). -/
structure CleanRecord where
  cmplnt_num : String
  cmplnt_fr_dt : String
  cmplnt_fr_tm : String
  boro_nm : String
  latitude : ℚ
  longitude : ℚ
  ofns_desc : String
  law_cat_cd : String
  deriving DecidableEq, Repr

/-- Python truthiness of a `record.get(...)` result as tested by
`all([...])` in the source: `None` and the empty string are falsy. -/
def truthy : Option String → Bool
  | none => false
  | some s => !(s == "")

/-- The `all([cmplnt_id, cmplnt_dt, boro, lat_str, lon_str, ofns, law_cat])`
presence test over the seven essential fields (line 54 of the source). -/
def hasAllFields (r : RawRecord) : Bool :=
  truthy r.cmplnt_num && truthy r.cmplnt_fr_dt && truthy r.boro_nm &&
  truthy r.latitude && truthy r.longitude && truthy r.ofns_desc &&
  truthy r.law_cat_cd

/-- The `boro == "(null)" or boro == ""` sentinel test (line 59). -/
def nullBoro (r : RawRecord) : Bool :=
  (r.boro_nm.getD "" == "(null)") || (r.boro_nm.getD "" == "")

/-- A record falls to one of the two missing-field rejections
(lines 54 and 59 of the source). -/
def missingCheck (r : RawRecord) : Bool :=
  !hasAllFields r || nullBoro r

/-- The NYC bounding-box test of line 74:
`40.4 <= lat <= 41.0 and -74.4 <= lon <= -73.6`. -/
def inNycBox (lat lon : ℚ) : Bool :=
  decide (40.4 ≤ lat) && decide (lat ≤ 41.0) &&
  decide (-74.4 ≤ lon) && decide (lon ≤ -73.6)

/-- A record fails the coordinate step: a coordinate string does not parse
(the `except (ValueError, TypeError)` arm) or the parsed pair is outside
the bounding box. -/
def coordFail (r : RawRecord) : Bool :=
  match parseFloat (r.latitude.getD ""), parseFloat (r.longitude.getD "") with
  | some lat, some lon => !inNycBox lat lon
  | _, _ => true

/-- State threaded through the streaming pass: the `seen_ids` set (as a
list with membership), the records emitted to the clean store so far, and
the four counters of the source. Batch flushing (5000 at a time) only
groups inserts of the same records in the same order, so the clean-store
contents are the concatenation of all accepted records. -/
structure CleanState where
  seen : List String
  cleanStore : List CleanRecord
  skipped_missing : ℕ
  skipped_invalid_coords : ℕ
  skipped_duplicate : ℕ
  processed : ℕ
  deriving DecidableEq, Repr

def initState : CleanState :=
  { seen := [], cleanStore := [], skipped_missing := 0,
    skipped_invalid_coords := 0, skipped_duplicate := 0, processed := 0 }

/-- The cleaned record built at lines 86-95: time field defaulted to the
midnight sentinel when absent, coordinates the parsed values. -/
def mkCleanRecord (r : RawRecord) (lat lon : ℚ) : CleanRecord :=
  { cmplnt_num := r.cmplnt_num.getD ""
    cmplnt_fr_dt := r.cmplnt_fr_dt.getD ""
    cmplnt_fr_tm := r.cmplnt_fr_tm.getD "00:00:00"
    boro_nm := r.boro_nm.getD ""
    latitude := lat
    longitude := lon
    ofns_desc := r.ofns_desc.getD ""
    law_cat_cd := r.law_cat_cd.getD "" }

/-- One iteration of the `for record in source_collection.find()` loop
(lines 38-97), with the checks in source order: presence, null borough,
duplicate identifier, coordinate parse and range, then accept. -/
def cleanStep (st : CleanState) (r : RawRecord) : CleanState :=
  let st := { st with processed := st.processed + 1 }
  if !hasAllFields r then
    { st with skipped_missing := st.skipped_missing + 1 }
  else if nullBoro r then
    { st with skipped_missing := st.skipped_missing + 1 }
  else if r.cmplnt_num.getD "" ∈ st.seen then
    { st with skipped_duplicate := st.skipped_duplicate + 1 }
  else
    match parseFloat (r.latitude.getD ""), parseFloat (r.longitude.getD "") with
    | some lat, some lon =>
        if inNycBox lat lon then
          { st with seen := r.cmplnt_num.getD "" :: st.seen,
                    cleanStore := st.cleanStore ++ [mkCleanRecord r lat lon] }
        else
          { st with skipped_invalid_coords := st.skipped_invalid_coords + 1 }
    | _, _ =>
        { st with skipped_invalid_coords := st.skipped_invalid_coords + 1 }

/-- The two collections of the `nyc_crime` database that the pipeline
touches. -/
structure DB where
  complaints_2024 : List RawRecord
  complaints_2024_clean : List CleanRecord
  deriving DecidableEq, Repr

/-- The data effect of `clean_2024_data`: clear the target collection
(`delete_many({})`, line 22), stream every raw record once in storage
order, and write the accepted records to the clean store. Returns the
updated database and the final pass state (counters included). -/
def clean_2024_data (db : DB) : DB × CleanState :=
  let cleared : DB := { db with complaints_2024_clean := [] }
  let st := cleared.complaints_2024.foldl cleanStep initState
  ({ cleared with complaints_2024_clean := st.cleanStore }, st)

/-- Python division as used by the summary block: raises
`ZeroDivisionError` (here `none`) when the denominator is zero. -/
def pydiv (a b : ℚ) : Option ℚ :=
  if b = 0 then none else some (a / b)

/-- The figures printed by the cleaning summary block (lines 126-133). -/
structure CleaningSummary where
  original_records : ℕ
  cleaned_records : ℕ
  removed_missing : ℕ
  removed_invalid_coords : ℕ
  removed_duplicates : ℕ
  removed_pct : ℚ
  retention_rate : ℚ
  deriving DecidableEq, Repr

/-- The summary computation of lines 126-133: both percentage lines divide
by `original_count` unconditionally, so an empty raw store makes the whole
summary raise (`none`). -/
def cleaningSummary (db : DB) : Option CleaningSummary :=
  let out := clean_2024_data db
  let original_count := db.complaints_2024.length
  let final_count := out.1.complaints_2024_clean.length
  match pydiv ((original_count - final_count : ℕ) : ℚ) (original_count : ℚ),
        pydiv (final_count : ℚ) (original_count : ℚ) with
  | some rm, some rt =>
      some { original_records := original_count
             cleaned_records := final_count
             removed_missing := out.2.skipped_missing
             removed_invalid_coords := out.2.skipped_invalid_coords
             removed_duplicates := out.2.skipped_duplicate
             removed_pct := rm * 100
             retention_rate := rt * 100 }
  | _, _ => none

/-! ### The robust downloader

`download_2024_crime_data_robust` pages through the remote dataset. The
network is modelled as a trace of fetch outcomes, consumed one per
`client_api.get(...)` call: `.err` is a raised exception, `.ok rs` a
returned page. The state records the raw collection, the offset cursor,
the running total, and observability logs of every requested offset and
every `time.sleep` duration, so that the retry/backoff policy is visible
in the result. -/

inductive FetchResult where
  | ok (records : List RawRecord)
  | err
  deriving DecidableEq, Repr

def batch_size : ℕ := 5000

def max_retries : ℕ := 5

structure DLState where
  collection : List RawRecord
  offset : ℕ
  total_imported : ℕ
  requests : List ℕ
  sleeps : List ℕ
  deriving DecidableEq, Repr

inductive InnerOutcome where
  | gotPage (results : List RawRecord)
  | failed
  deriving DecidableEq, Repr

/-- The inner retry loop (`while retry_count < max_retries and not success`,
lines 60-104 of the source): each attempt requests the current offset; on
an exception the attempt counter rises and, unless retries are exhausted,
the loop sleeps `retry_count * 5` and retries the same offset; on a
returned page the records are inserted, the offset and total advance by
the page length, and a full page is followed by `time.sleep(1)` (a short
or empty page breaks out before that sleep). An exhausted trace (the
oracle supplies no further outcome) is reported as `.failed` and ends the
run; every claim below supplies traces long enough that this artificial
case does not arise. -/
def innerLoop : ℕ → List FetchResult → DLState → InnerOutcome × List FetchResult × DLState
  | _, [], st => (.failed, [], st)
  | retry_count, .err :: rest, st =>
      if retry_count < max_retries then
        let st := { st with requests := st.requests ++ [st.offset] }
        let rc := retry_count + 1
        if rc < max_retries then
          innerLoop rc rest { st with sleeps := st.sleeps ++ [rc * 5] }
        else
          (.failed, rest, st)
      else
        (.failed, .err :: rest, st)
  | retry_count, .ok results :: rest, st =>
      if retry_count < max_retries then
        let st := { st with requests := st.requests ++ [st.offset] }
        if results.isEmpty then
          (.gotPage [], rest, st)
        else
          let st := { st with collection := st.collection ++ results,
                              total_imported := st.total_imported + results.length,
                              offset := st.offset + results.length }
          if results.length < batch_size then
            (.gotPage results, rest, st)
          else
            (.gotPage results, rest, { st with sleeps := st.sleeps ++ [1] })
      else
        (.failed, .ok results :: rest, st)

/-- The outer `while True` loop (lines 56-110): run one retry loop; stop
after an exhausted retry loop (`if not success: break`) or after an empty
or short page; otherwise continue at the advanced offset. Fuel bounds the
number of outer iterations; `download_2024_crime_data_robust` supplies
more fuel than the trace can feed. -/
def outerLoop : ℕ → List FetchResult → DLState → DLState
  | 0, _, st => st
  | fuel + 1, trace, st =>
      match innerLoop 0 trace st with
      | (.failed, _, st') => st'
      | (.gotPage results, tr, st') =>
          if results.isEmpty || results.length < batch_size then st'
          else outerLoop fuel tr st'

/-- The whole robust download run: the starting offset and running total
are the raw store's current record count (lines 22-33 and 48 of the
source), then the pagination loop runs against the fetch trace. -/
def download_2024_crime_data_robust (existing : List RawRecord)
    (trace : List FetchResult) : DLState :=
  outerLoop (trace.length + 1) trace
    { collection := existing, offset := existing.length,
      total_imported := existing.length, requests := [], sleeps := [] }

/-! ### Sample records for concrete scenarios -/

/-- Scenario A of the spec: a fully valid raw record. -/
def sampleRaw : RawRecord :=
  { cmplnt_num := some "1", cmplnt_fr_dt := some "2024-01-01",
    cmplnt_fr_tm := none, boro_nm := some "QUEENS",
    latitude := some "40.7", longitude := some "-73.8",
    ofns_desc := some "THEFT", law_cat_cd := some "FELONY" }

/-- A valid record with identifier "7" (Scenario C). -/
def sampleRaw7 : RawRecord :=
  { sampleRaw with cmplnt_num := some "7" }

/-- A second valid record sharing identifier "7" (Scenario C). -/
def sampleRaw7b : RawRecord :=
  { sampleRaw7 with boro_nm := some "BROOKLYN", ofns_desc := some "ROBBERY" }

/-- A record that is missing a field (empty category), is a duplicate of
identifier "7", and has an out-of-range latitude, all at once. -/
def sampleMulti : RawRecord :=
  { sampleRaw7 with ofns_desc := some "", latitude := some "99.9" }

/-- Scenario D: valid fields but latitude "99.9", outside the box. -/
def sampleBadCoord : RawRecord :=
  { sampleRaw with cmplnt_num := some "2", latitude := some "99.9" }

/-- A database whose raw store is empty. -/
def emptyDB : DB :=
  { complaints_2024 := [], complaints_2024_clean := [] }

/-- Initial downloader state over an empty raw store. -/
def dlInit : DLState :=
  { collection := [], offset := 0, total_imported := 0,
    requests := [], sleeps := [] }

/-- The downloader state at the start of a run over a raw store already
holding `existing`: offset and running total are its record count. -/
def dlStart (existing : List RawRecord) : DLState :=
  { collection := existing, offset := existing.length,
    total_imported := existing.length, requests := [], sleeps := [] }

/-! ### Case analysis of one cleaning step -/

theorem cleanStep_missing (st : CleanState) (r : RawRecord)
    (h : missingCheck r = true) :
    cleanStep st r = { st with processed := st.processed + 1,
                               skipped_missing := st.skipped_missing + 1 } := by
  cases hall : hasAllFields r with
  | false => simp [cleanStep, hall]
  | true =>
      have hn : nullBoro r = true := by simpa [missingCheck, hall] using h
      simp [cleanStep, hall, hn]

theorem missingCheck_false (r : RawRecord) (h : missingCheck r = false) :
    hasAllFields r = true ∧ nullBoro r = false := by
  constructor
  · cases hall : hasAllFields r
    · simp [missingCheck, hall] at h
    · rfl
  · cases hn : nullBoro r
    · rfl
    · simp [missingCheck, hn] at h

theorem cleanStep_duplicate (st : CleanState) (r : RawRecord)
    (hm : missingCheck r = false) (hd : r.cmplnt_num.getD "" ∈ st.seen) :
    cleanStep st r = { st with processed := st.processed + 1,
                               skipped_duplicate := st.skipped_duplicate + 1 } := by
  obtain ⟨h1, h2⟩ := missingCheck_false r hm
  simp [cleanStep, h1, h2, hd]

theorem cleanStep_invalid (st : CleanState) (r : RawRecord)
    (hm : missingCheck r = false) (hd : r.cmplnt_num.getD "" ∉ st.seen)
    (hc : coordFail r = true) :
    cleanStep st r =
      { st with processed := st.processed + 1,
                skipped_invalid_coords := st.skipped_invalid_coords + 1 } := by
  obtain ⟨h1, h2⟩ := missingCheck_false r hm
  cases hlat : parseFloat (r.latitude.getD "") with
  | none => simp [cleanStep, h1, h2, hd, hlat]
  | some lat =>
      cases hlon : parseFloat (r.longitude.getD "") with
      | none => simp [cleanStep, h1, h2, hd, hlat, hlon]
      | some lon =>
          have hbox : inNycBox lat lon = false := by
            simpa [coordFail, hlat, hlon] using hc
          simp [cleanStep, h1, h2, hd, hlat, hlon, hbox]

theorem cleanStep_accept (st : CleanState) (r : RawRecord) (lat lon : ℚ)
    (hm : missingCheck r = false) (hd : r.cmplnt_num.getD "" ∉ st.seen)
    (hlat : parseFloat (r.latitude.getD "") = some lat)
    (hlon : parseFloat (r.longitude.getD "") = some lon)
    (hbox : inNycBox lat lon = true) :
    cleanStep st r =
      { st with processed := st.processed + 1,
                seen := r.cmplnt_num.getD "" :: st.seen,
                cleanStore := st.cleanStore ++ [mkCleanRecord r lat lon] } := by
  obtain ⟨h1, h2⟩ := missingCheck_false r hm
  simp [cleanStep, h1, h2, hd, hlat, hlon, hbox]

theorem coordFail_false (r : RawRecord) (h : coordFail r = false) :
    ∃ lat lon, parseFloat (r.latitude.getD "") = some lat ∧
      parseFloat (r.longitude.getD "") = some lon ∧
      inNycBox lat lon = true := by
  cases hlat : parseFloat (r.latitude.getD "") with
  | none => simp [coordFail, hlat] at h
  | some lat =>
      cases hlon : parseFloat (r.longitude.getD "") with
      | none => simp [coordFail, hlat, hlon] at h
      | some lon =>
          exact ⟨lat, lon, rfl, rfl, by simpa [coordFail, hlat, hlon] using h⟩

/-- Every step either leaves the clean store and seen-set unchanged (a
rejection) or accepts: appends one record built from in-box parsed
coordinates and records its identifier as seen. -/
theorem cleanStep_store_cases (st : CleanState) (r : RawRecord) :
    ((cleanStep st r).seen = st.seen ∧ (cleanStep st r).cleanStore = st.cleanStore) ∨
    (∃ lat lon, parseFloat (r.latitude.getD "") = some lat ∧
        parseFloat (r.longitude.getD "") = some lon ∧
        inNycBox lat lon = true ∧
        r.cmplnt_num.getD "" ∉ st.seen ∧
        (cleanStep st r).seen = r.cmplnt_num.getD "" :: st.seen ∧
        (cleanStep st r).cleanStore = st.cleanStore ++ [mkCleanRecord r lat lon]) := by
  by_cases hm : missingCheck r = true
  · left
    rw [cleanStep_missing st r hm]
    exact ⟨rfl, rfl⟩
  · have hm' : missingCheck r = false := by simpa using hm
    by_cases hd : r.cmplnt_num.getD "" ∈ st.seen
    · left
      rw [cleanStep_duplicate st r hm' hd]
      exact ⟨rfl, rfl⟩
    · by_cases hc : coordFail r = true
      · left
        rw [cleanStep_invalid st r hm' hd hc]
        exact ⟨rfl, rfl⟩
      · have hc' : coordFail r = false := by simpa using hc
        obtain ⟨lat, lon, hlat, hlon, hbox⟩ := coordFail_false r hc'
        right
        refine ⟨lat, lon, hlat, hlon, hbox, hd, ?_, ?_⟩ <;>
          rw [cleanStep_accept st r lat lon hm' hd hlat hlon hbox]

/-- Each step counts one examined record and attributes it to exactly one
of the four outcomes (accepted, or one of the three rejection counters). -/
theorem cleanStep_counts (st : CleanState) (r : RawRecord) :
    (cleanStep st r).processed = st.processed + 1 ∧
    (cleanStep st r).cleanStore.length + (cleanStep st r).skipped_missing +
        (cleanStep st r).skipped_invalid_coords + (cleanStep st r).skipped_duplicate =
      st.cleanStore.length + st.skipped_missing + st.skipped_invalid_coords +
        st.skipped_duplicate + 1 := by
  by_cases hm : missingCheck r = true
  · rw [cleanStep_missing st r hm]
    exact ⟨rfl, by simp; omega⟩
  · have hm' : missingCheck r = false := by simpa using hm
    by_cases hd : r.cmplnt_num.getD "" ∈ st.seen
    · rw [cleanStep_duplicate st r hm' hd]
      exact ⟨rfl, by simp; omega⟩
    · by_cases hc : coordFail r = true
      · rw [cleanStep_invalid st r hm' hd hc]
        exact ⟨rfl, by simp; omega⟩
      · have hc' : coordFail r = false := by simpa using hc
        obtain ⟨lat, lon, hlat, hlon, hbox⟩ := coordFail_false r hc'
        rw [cleanStep_accept st r lat lon hm' hd hlat hlon hbox]
        exact ⟨rfl, by simp; omega⟩

theorem cleanPass_counts (l : List RawRecord) (st : CleanState) :
    (l.foldl cleanStep st).processed = st.processed + l.length ∧
    (l.foldl cleanStep st).cleanStore.length +
        (l.foldl cleanStep st).skipped_missing +
        (l.foldl cleanStep st).skipped_invalid_coords +
        (l.foldl cleanStep st).skipped_duplicate =
      st.cleanStore.length + st.skipped_missing + st.skipped_invalid_coords +
        st.skipped_duplicate + l.length := by
  induction l generalizing st with
  | nil => simp
  | cons r tl ih =>
      obtain ⟨ih1, ih2⟩ := ih (cleanStep st r)
      obtain ⟨s1, s2⟩ := cleanStep_counts st r
      simp only [List.foldl_cons, List.length_cons]
      constructor <;> omega

theorem inNycBox_bounds (lat lon : ℚ) (h : inNycBox lat lon = true) :
    40.4 ≤ lat ∧ lat ≤ 41.0 ∧ -74.4 ≤ lon ∧ lon ≤ -73.6 := by
  simp only [inNycBox, Bool.and_eq_true, decide_eq_true_eq] at h
  exact ⟨h.1.1.1, h.1.1.2, h.1.2, h.2⟩

/-- The uniqueness invariant carried through the pass: identifiers in the
clean store are pairwise distinct and all recorded in the seen-set. -/
theorem cleanPass_unique (l : List RawRecord) (st : CleanState)
    (h1 : st.cleanStore.Pairwise (fun a b => a.cmplnt_num ≠ b.cmplnt_num))
    (h2 : ∀ c ∈ st.cleanStore, c.cmplnt_num ∈ st.seen) :
    (l.foldl cleanStep st).cleanStore.Pairwise
        (fun a b => a.cmplnt_num ≠ b.cmplnt_num) ∧
    ∀ c ∈ (l.foldl cleanStep st).cleanStore,
      c.cmplnt_num ∈ (l.foldl cleanStep st).seen := by
  induction l generalizing st with
  | nil => exact ⟨h1, h2⟩
  | cons r tl ih =>
      simp only [List.foldl_cons]
      rcases cleanStep_store_cases st r with ⟨hs, hc⟩ |
        ⟨lat, lon, _, _, _, hnotin, hs, hc⟩
      · exact ih (cleanStep st r) (by rw [hc]; exact h1)
          (by rw [hc, hs]; exact h2)
      · refine ih (cleanStep st r) ?_ ?_
        · rw [hc, List.pairwise_append]
          refine ⟨h1, by simp, ?_⟩
          intro a ha b hb
          simp only [List.mem_singleton] at hb
          subst hb
          intro heq
          have hmem : (mkCleanRecord r lat lon).cmplnt_num ∈ st.seen :=
            heq ▸ h2 a ha
          exact hnotin hmem
        · rw [hc, hs]
          intro c hcmem
          rcases List.mem_append.mp hcmem with hin | hnew
          · exact List.mem_cons_of_mem _ (h2 c hin)
          · simp only [List.mem_singleton] at hnew
            subst hnew
            exact List.mem_cons_self _ _

/-- The coordinate invariant carried through the pass: every stored clean
record's coordinates lie in the bounding box. -/
theorem cleanPass_coords (l : List RawRecord) (st : CleanState)
    (h : ∀ c ∈ st.cleanStore, 40.4 ≤ c.latitude ∧ c.latitude ≤ 41.0 ∧
          -74.4 ≤ c.longitude ∧ c.longitude ≤ -73.6) :
    ∀ c ∈ (l.foldl cleanStep st).cleanStore,
      40.4 ≤ c.latitude ∧ c.latitude ≤ 41.0 ∧
      -74.4 ≤ c.longitude ∧ c.longitude ≤ -73.6 := by
  induction l generalizing st with
  | nil => exact h
  | cons r tl ih =>
      simp only [List.foldl_cons]
      apply ih (cleanStep st r)
      rcases cleanStep_store_cases st r with ⟨_, hc⟩ |
        ⟨lat, lon, _, _, hbox, _, _, hc⟩
      · rw [hc]; exact h
      · rw [hc]
        intro c hcmem
        rcases List.mem_append.mp hcmem with hin | hnew
        · exact h c hin
        · simp only [List.mem_singleton] at hnew
          subst hnew
          exact inNycBox_bounds lat lon hbox

/-! ### Pagination loop invariants -/

/-- Through one retry loop the offset never decreases, requests are only
appended, every newly requested offset is at least the entry offset, and
the first request of the loop is at exactly the entry offset. -/
theorem innerLoop_spec (trace : List FetchResult) (rc : ℕ) (st : DLState) :
    st.offset ≤ (innerLoop rc trace st).2.2.offset ∧
    ∃ l, (innerLoop rc trace st).2.2.requests = st.requests ++ l ∧
      (∀ q ∈ l, st.offset ≤ q) ∧
      (rc < max_retries → trace ≠ [] → l.head? = some st.offset) := by
  induction trace generalizing rc st with
  | nil =>
      exact ⟨le_rfl, [], by simp [innerLoop], by simp, fun _ h => absurd rfl h⟩
  | cons t ts ih =>
      cases t with
      | err =>
          by_cases hrc : rc < max_retries
          · by_cases hrc2 : rc + 1 < max_retries
            · have heq : innerLoop rc (.err :: ts) st =
                  innerLoop (rc + 1) ts
                    { st with requests := st.requests ++ [st.offset],
                              sleeps := st.sleeps ++ [(rc + 1) * 5] } := by
                simp [innerLoop, hrc, hrc2]
              rw [heq]
              obtain ⟨ho, l', hreq, hge, _⟩ := ih (rc + 1)
                { st with requests := st.requests ++ [st.offset],
                          sleeps := st.sleeps ++ [(rc + 1) * 5] }
              refine ⟨ho, st.offset :: l', ?_, ?_, fun _ _ => rfl⟩
              · rw [hreq]; simp
              · intro q hq
                rcases List.mem_cons.mp hq with rfl | hq'
                · exact le_rfl
                · exact hge q hq'
            · have heq : innerLoop rc (.err :: ts) st =
                  (.failed, ts,
                    { st with requests := st.requests ++ [st.offset] }) := by
                simp [innerLoop, hrc, hrc2]
              rw [heq]
              refine ⟨le_rfl, [st.offset], by simp, ?_, fun _ _ => rfl⟩
              intro q hq
              rcases List.mem_singleton.mp hq with rfl
              exact le_rfl
          · have heq : innerLoop rc (.err :: ts) st = (.failed, .err :: ts, st) := by
              simp [innerLoop, hrc]
            rw [heq]
            exact ⟨le_rfl, [], by simp, by simp, fun h _ => absurd h hrc⟩
      | ok results =>
          by_cases hrc : rc < max_retries
          · by_cases hempty : results.isEmpty
            · have heq : innerLoop rc (.ok results :: ts) st =
                  (.gotPage [], ts,
                    { st with requests := st.requests ++ [st.offset] }) := by
                simp [innerLoop, hrc, hempty]
              rw [heq]
              refine ⟨le_rfl, [st.offset], by simp, ?_, fun _ _ => rfl⟩
              intro q hq
              rcases List.mem_singleton.mp hq with rfl
              exact le_rfl
            · by_cases hshort : results.length < batch_size
              · have heq : innerLoop rc (.ok results :: ts) st =
                    (.gotPage results, ts,
                      { st with requests := st.requests ++ [st.offset],
                                collection := st.collection ++ results,
                                total_imported := st.total_imported + results.length,
                                offset := st.offset + results.length }) := by
                  simp [innerLoop, hrc, hempty, hshort]
                rw [heq]
                refine ⟨Nat.le_add_right _ _, [st.offset], by simp, ?_, fun _ _ => rfl⟩
                intro q hq
                rcases List.mem_singleton.mp hq with rfl
                exact le_rfl
              · have heq : innerLoop rc (.ok results :: ts) st =
                    (.gotPage results, ts,
                      { st with requests := st.requests ++ [st.offset],
                                collection := st.collection ++ results,
                                total_imported := st.total_imported + results.length,
                                offset := st.offset + results.length,
                                sleeps := st.sleeps ++ [1] }) := by
                  simp [innerLoop, hrc, hempty, hshort]
                rw [heq]
                refine ⟨Nat.le_add_right _ _, [st.offset], by simp, ?_, fun _ _ => rfl⟩
                intro q hq
                rcases List.mem_singleton.mp hq with rfl
                exact le_rfl
          · have heq : innerLoop rc (.ok results :: ts) st =
                (.failed, .ok results :: ts, st) := by
              simp [innerLoop, hrc]
            rw [heq]
            exact ⟨le_rfl, [], by simp, by simp, fun h _ => absurd h hrc⟩

/-- Restatement of `innerLoop_spec` against a named result triple. -/
theorem innerLoop_spec_eq (trace : List FetchResult) (rc : ℕ) (st : DLState)
    {o : InnerOutcome} {tr : List FetchResult} {st' : DLState}
    (h : innerLoop rc trace st = (o, tr, st')) :
    st.offset ≤ st'.offset ∧
    ∃ l, st'.requests = st.requests ++ l ∧
      (∀ q ∈ l, st.offset ≤ q) ∧
      (rc < max_retries → trace ≠ [] → l.head? = some st.offset) := by
  have hspec := innerLoop_spec trace rc st
  rw [h] at hspec
  exact hspec

/-- The same invariants for the whole pagination loop: the offset is
nondecreasing, every offset it requests is at least the starting offset,
and its very first request is at exactly the starting offset. -/
theorem outerLoop_spec (fuel : ℕ) (trace : List FetchResult) (st : DLState) :
    st.offset ≤ (outerLoop fuel trace st).offset ∧
    ∃ l, (outerLoop fuel trace st).requests = st.requests ++ l ∧
      (∀ q ∈ l, st.offset ≤ q) ∧
      (0 < fuel → trace ≠ [] → l.head? = some st.offset) := by
  induction fuel generalizing trace st with
  | zero =>
      exact ⟨le_rfl, [], by simp [outerLoop], by simp,
        fun h => absurd h (lt_irrefl 0)⟩
  | succ fuel ih =>
      rcases hi : innerLoop 0 trace st with ⟨o, tr, st'⟩
      obtain ⟨ho, l1, hreq1, hge1, hhead1⟩ := innerLoop_spec_eq trace 0 st hi
      cases o with
      | failed =>
          have hout : outerLoop (fuel + 1) trace st = st' := by
            simp [outerLoop, hi]
          rw [hout]
          refine ⟨ho, l1, hreq1, hge1, ?_⟩
          intro _ hne
          exact hhead1 (by norm_num [max_retries]) hne
      | gotPage results =>
          by_cases hstop : (results.isEmpty || decide (results.length < batch_size)) = true
          · have hout : outerLoop (fuel + 1) trace st = st' := by
              simp only [outerLoop, hi]
              rw [if_pos hstop]
            rw [hout]
            refine ⟨ho, l1, hreq1, hge1, ?_⟩
            intro _ hne
            exact hhead1 (by norm_num [max_retries]) hne
          · have hout : outerLoop (fuel + 1) trace st = outerLoop fuel tr st' := by
              simp only [outerLoop, hi]
              rw [if_neg hstop]
            rw [hout]
            obtain ⟨ho2, l2, hreq2, hge2, _⟩ := ih tr st'
            refine ⟨le_trans ho ho2, l1 ++ l2, ?_, ?_, ?_⟩
            · rw [hreq2, hreq1, List.append_assoc]
            · intro q hq
              rcases List.mem_append.mp hq with h1 | h2
              · exact hge1 q h1
              · exact le_trans ho (hge2 q h2)
            · intro _ hne
              have hh := hhead1 (by norm_num [max_retries]) hne
              rcases l1 with _ | ⟨x, l1'⟩
              · simp at hh
              · simpa using hh

/-! ### Evaluation of the sample coordinate strings -/

theorem parseFloat_407 : parseFloat "40.7" = some (407 / 10) := by
  have h : parseDecimal "40.7" = some (407, 1) := by decide
  simp [parseFloat, h]

theorem parseFloat_neg738 : parseFloat "-73.8" = some (-738 / 10) := by
  have h : parseDecimal "-73.8" = some (-738, 1) := by decide
  simp [parseFloat, h]

theorem inNycBox_sample : inNycBox (407 / 10) (-738 / 10) = true := by
  simp only [inNycBox, Bool.and_eq_true, decide_eq_true_eq]
  norm_num

theorem coordFail_sampleBadCoord : coordFail sampleBadCoord = true := by
  have h1 : parseDecimal "99.9" = some (999, 1) := by decide
  have h2 : parseDecimal "-73.8" = some (-738, 1) := by decide
  simp [coordFail, sampleBadCoord, sampleRaw, parseFloat, h1, h2, inNycBox]
  norm_num

/-! ### The claims -/

/-- C1: after a full clean pass over any raw store snapshot, the number of
records examined equals the accepted count plus the three rejection
counters, `examined == accepted + missing + invalid_coordinates +
duplicate`; moreover each examined record moves exactly one of the four
tallies, so every rejected record is attributed to exactly one reason. -/
theorem clean_conservation (db : DB) :
    (clean_2024_data db).2.processed = db.complaints_2024.length ∧
    (clean_2024_data db).2.processed =
      (clean_2024_data db).1.complaints_2024_clean.length +
        (clean_2024_data db).2.skipped_missing +
        (clean_2024_data db).2.skipped_invalid_coords +
        (clean_2024_data db).2.skipped_duplicate ∧
    ∀ st r, (cleanStep st r).processed = st.processed + 1 ∧
      (cleanStep st r).cleanStore.length + (cleanStep st r).skipped_missing +
          (cleanStep st r).skipped_invalid_coords +
          (cleanStep st r).skipped_duplicate =
        st.cleanStore.length + st.skipped_missing + st.skipped_invalid_coords +
          st.skipped_duplicate + 1 := by
  obtain ⟨h1, h2⟩ := cleanPass_counts db.complaints_2024 initState
  have hp : initState.processed = 0 := rfl
  have hs : initState.cleanStore.length = 0 := rfl
  have hm : initState.skipped_missing = 0 := rfl
  have hic : initState.skipped_invalid_coords = 0 := rfl
  have hd : initState.skipped_duplicate = 0 := rfl
  refine ⟨?_, ?_, cleanStep_counts⟩
  · show (db.complaints_2024.foldl cleanStep initState).processed =
      db.complaints_2024.length
    omega
  · show (db.complaints_2024.foldl cleanStep initState).processed =
      (db.complaints_2024.foldl cleanStep initState).cleanStore.length +
        (db.complaints_2024.foldl cleanStep initState).skipped_missing +
        (db.complaints_2024.foldl cleanStep initState).skipped_invalid_coords +
        (db.complaints_2024.foldl cleanStep initState).skipped_duplicate
    omega

/-- C2: the rejection checks run in the fixed order missing-field, then
duplicate, then coordinate, and the first matching reason wins: whatever
the state of the seen-set and the coordinate fields, a record failing the
missing-field check is counted as `missing` only; a record passing it but
already seen is counted as `duplicate` only; a record passing both but
failing the coordinate check is counted as `invalid_coordinates` only;
and a record passing all three is accepted. -/
theorem rejection_order (st : CleanState) (r : RawRecord) :
    (missingCheck r = true →
        cleanStep st r = { st with processed := st.processed + 1,
                                   skipped_missing := st.skipped_missing + 1 }) ∧
    (missingCheck r = false → r.cmplnt_num.getD "" ∈ st.seen →
        cleanStep st r = { st with processed := st.processed + 1,
                                   skipped_duplicate := st.skipped_duplicate + 1 }) ∧
    (missingCheck r = false → r.cmplnt_num.getD "" ∉ st.seen →
        coordFail r = true →
        cleanStep st r =
          { st with processed := st.processed + 1,
                    skipped_invalid_coords := st.skipped_invalid_coords + 1 }) ∧
    (missingCheck r = false → r.cmplnt_num.getD "" ∉ st.seen →
        coordFail r = false →
        ∃ lat lon, parseFloat (r.latitude.getD "") = some lat ∧
          parseFloat (r.longitude.getD "") = some lon ∧
          cleanStep st r =
            { st with processed := st.processed + 1,
                      seen := r.cmplnt_num.getD "" :: st.seen,
                      cleanStore := st.cleanStore ++ [mkCleanRecord r lat lon] }) :=
  ⟨cleanStep_missing st r,
   cleanStep_duplicate st r,
   cleanStep_invalid st r,
   fun hm hd hc => by
     obtain ⟨lat, lon, hlat, hlon, hbox⟩ := coordFail_false r hc
     exact ⟨lat, lon, hlat, hlon,
       cleanStep_accept st r lat lon hm hd hlat hlon hbox⟩⟩

/-- Witness for C2: a record with an empty category, a seen identifier and
an out-of-range latitude all at once is still counted as `missing`. -/
theorem rejection_order_witness :
    cleanStep { initState with seen := ["7"] } sampleMulti =
      { initState with seen := ["7"], processed := 1, skipped_missing := 1 } :=
  (rejection_order { initState with seen := ["7"] } sampleMulti).1 (by decide)

/-- C3: after any clean pass, no two records of the clean store share a
`cmplnt_num` identifier. -/
theorem clean_store_unique (db : DB) :
    ((clean_2024_data db).1.complaints_2024_clean).Pairwise
      (fun a b => a.cmplnt_num ≠ b.cmplnt_num) :=
  (cleanPass_unique db.complaints_2024 initState (by simp [initState])
    (by simp [initState])).1

/-- C4: every record of the clean store carries numeric coordinates inside
the bounding box 40.4 ≤ lat ≤ 41.0, -74.4 ≤ lon ≤ -73.6 (they are of type
ℚ in `CleanRecord`, never text); and a record reaching the coordinate
check whose strings fail to parse or fall outside the box is rejected as
`invalid_coordinates`. -/
theorem clean_coordinates (db : DB) :
    (∀ c ∈ (clean_2024_data db).1.complaints_2024_clean,
        40.4 ≤ c.latitude ∧ c.latitude ≤ 41.0 ∧
        -74.4 ≤ c.longitude ∧ c.longitude ≤ -73.6) ∧
    (∀ st r, missingCheck r = false → r.cmplnt_num.getD "" ∉ st.seen →
        coordFail r = true →
        cleanStep st r =
          { st with processed := st.processed + 1,
                    skipped_invalid_coords := st.skipped_invalid_coords + 1 }) :=
  ⟨cleanPass_coords db.complaints_2024 initState (by simp [initState]),
   fun st r => cleanStep_invalid st r⟩

/-- Witness for C4: Scenario D, latitude "99.9" is rejected as
`invalid_coordinates`. -/
theorem clean_coordinates_witness :
    cleanStep initState sampleBadCoord =
      { initState with processed := 1, skipped_invalid_coords := 1 } :=
  (clean_coordinates emptyDB).2 initState sampleBadCoord (by decide)
    (by decide) coordFail_sampleBadCoord

/-- C5: the clean pass is idempotent: running it on its own output (the
raw store unchanged) gives the same clean store and counters, and the
result never depends on the clean store's prior contents, because the
destination is cleared before every pass. -/
theorem clean_idempotent (db : DB) :
    clean_2024_data (clean_2024_data db).1 = clean_2024_data db ∧
    ∀ prior : List CleanRecord,
      clean_2024_data { db with complaints_2024_clean := prior } =
        clean_2024_data db :=
  ⟨rfl, fun _ => rfl⟩

/-- C8: the source summary is not zero-division-safe: invoked on an empty
raw store, the percentage lines divide by the zero original count and the
operation raises (`none`) instead of reporting percentages as undefined
or omitted. -/
theorem cleaning_summary_empty_raises : cleaningSummary emptyDB = none := rfl

/-- C9: two raw records that pass all other checks and share an
identifier: the first in storage order is accepted, the second rejected
as `duplicate`; and an identifier joins the seen-set only when its record
is accepted — any step that leaves the clean store unchanged (a
rejection) leaves the seen-set unchanged too. -/
theorem duplicate_first_wins (st : CleanState) (r1 r2 : RawRecord)
    (hm1 : missingCheck r1 = false)
    (hd1 : r1.cmplnt_num.getD "" ∉ st.seen)
    (lat lon : ℚ)
    (hlat : parseFloat (r1.latitude.getD "") = some lat)
    (hlon : parseFloat (r1.longitude.getD "") = some lon)
    (hbox : inNycBox lat lon = true)
    (hid : r2.cmplnt_num = r1.cmplnt_num)
    (hm2 : missingCheck r2 = false) :
    List.foldl cleanStep st [r1, r2] =
      { st with processed := st.processed + 2,
                skipped_duplicate := st.skipped_duplicate + 1,
                seen := r1.cmplnt_num.getD "" :: st.seen,
                cleanStore := st.cleanStore ++ [mkCleanRecord r1 lat lon] } ∧
    (∀ st' r', (cleanStep st' r').cleanStore = st'.cleanStore →
        (cleanStep st' r').seen = st'.seen) := by
  constructor
  · simp only [List.foldl_cons, List.foldl_nil]
    rw [cleanStep_accept st r1 lat lon hm1 hd1 hlat hlon hbox,
      cleanStep_duplicate _ r2 hm2 (by simp [hid])]
  · intro st' r' hst
    rcases cleanStep_store_cases st' r' with ⟨hs, _⟩ |
      ⟨lat', lon', _, _, _, _, hs, hstore⟩
    · exact hs
    · rw [hstore] at hst
      simp at hst

/-- Witness for C9: Scenario C, two valid records with identifier "7". -/
theorem duplicate_first_wins_witness :
    List.foldl cleanStep initState [sampleRaw7, sampleRaw7b] =
      { initState with processed := 2, skipped_duplicate := 1,
                       seen := ["7"],
                       cleanStore := [mkCleanRecord sampleRaw7 (407 / 10) (-738 / 10)] } :=
  (duplicate_first_wins initState sampleRaw7 sampleRaw7b (by decide) (by decide)
    (407 / 10) (-738 / 10) parseFloat_407 parseFloat_neg738 inNycBox_sample
    rfl (by decide)).1

/-- C10: a raw record in which any of the seven essential fields equals
the empty string — not only the region field — is rejected as `missing`,
because the presence check rejects any falsy value (`None` or `""`). -/
theorem empty_field_rejected_missing (st : CleanState) (r : RawRecord)
    (h : r.cmplnt_num = some "" ∨ r.cmplnt_fr_dt = some "" ∨
         r.boro_nm = some "" ∨ r.latitude = some "" ∨ r.longitude = some "" ∨
         r.ofns_desc = some "" ∨ r.law_cat_cd = some "") :
    cleanStep st r = { st with processed := st.processed + 1,
                               skipped_missing := st.skipped_missing + 1 } := by
  apply cleanStep_missing
  have hall : hasAllFields r = false := by
    rcases h with h | h | h | h | h | h | h <;> simp [hasAllFields, truthy, h]
  simp [missingCheck, hall]

/-- Witness for C10: an empty `ofns_desc` (category) string — not the
region field — is rejected as `missing`. -/
theorem empty_field_rejected_missing_witness :
    cleanStep initState sampleMulti =
      { initState with processed := 1, skipped_missing := 1 } :=
  empty_field_rejected_missing initState sampleMulti (by decide)

/-- C6: on transport errors the paginator retries the same offset, up to 5
attempts, with backoff delay attempt-number × 5 time-units (sleeps 5, 10,
15, 20 after failed attempts 1-4), never advancing the offset on a failed
attempt: four failures followed by a success at the same offset ingest
the page exactly once (the collection grows by exactly that page, in one
insert); five failures leave offset and collection untouched, and the run
then ends non-fatally at the current offset. -/
theorem retry_policy (st : DLState) (page : List RawRecord)
    (rest : List FetchResult) (hne : page ≠ []) :
    (innerLoop 0 (.err :: .err :: .err :: .err :: .ok page :: rest) st =
        (.gotPage page, rest,
          { st with collection := st.collection ++ page,
                    total_imported := st.total_imported + page.length,
                    offset := st.offset + page.length,
                    requests := st.requests ++
                      [st.offset, st.offset, st.offset, st.offset, st.offset],
                    sleeps := st.sleeps ++ [5, 10, 15, 20] ++
                      (if page.length < batch_size then [] else [1]) })) ∧
    (innerLoop 0 [.err, .err, .err, .err, .err] st =
        (.failed, [],
          { st with requests := st.requests ++
                      [st.offset, st.offset, st.offset, st.offset, st.offset],
                    sleeps := st.sleeps ++ [5, 10, 15, 20] })) ∧
    (∀ fuel, outerLoop (fuel + 1) [.err, .err, .err, .err, .err] st =
        { st with requests := st.requests ++
                    [st.offset, st.offset, st.offset, st.offset, st.offset],
                  sleeps := st.sleeps ++ [5, 10, 15, 20] }) := by
  have hemp : page.isEmpty = false := by
    simpa [List.isEmpty_iff] using hne
  have hfail : innerLoop 0 ([.err, .err, .err, .err, .err] : List FetchResult) st =
      (.failed, [],
        { st with requests := st.requests ++
                    [st.offset, st.offset, st.offset, st.offset, st.offset],
                  sleeps := st.sleeps ++ [5, 10, 15, 20] }) := by
    simp [innerLoop, max_retries, List.append_assoc]
  refine ⟨?_, hfail, ?_⟩
  · by_cases hshort : page.length < batch_size <;>
      simp [innerLoop, max_retries, hemp, hshort, List.append_assoc]
  · intro fuel
    simp [outerLoop, hfail]

/-- Witness for C6: four errors then a one-record page, from a fresh
store: the record is inserted once, all five requests are at offset 0,
and the backoff sleeps are 5, 10, 15, 20. -/
theorem retry_policy_witness :
    innerLoop 0 [.err, .err, .err, .err, .ok [sampleRaw]] dlInit =
      (.gotPage [sampleRaw], [],
        { dlInit with collection := [sampleRaw], total_imported := 1, offset := 1,
                      requests := [0, 0, 0, 0, 0], sleeps := [5, 10, 15, 20] }) :=
  (retry_policy dlInit [sampleRaw] [] (by decide)).1

/-- C7: a download run over a raw store already holding N records
requests offset N first and never requests an offset below N, so no
stored record is refetched at the network level; and each successful page
insert grows the stored collection and the running total by exactly the
page length, advancing the offset by the same amount. -/
theorem resume_from_count (existing : List RawRecord) (trace : List FetchResult) :
    (trace ≠ [] →
        (download_2024_crime_data_robust existing trace).requests.head? =
          some existing.length) ∧
    (∀ q ∈ (download_2024_crime_data_robust existing trace).requests,
        existing.length ≤ q) ∧
    (∀ rc (st : DLState) results rest, rc < max_retries → results ≠ [] →
        (innerLoop rc (.ok results :: rest) st).2.2.collection =
            st.collection ++ results ∧
        (innerLoop rc (.ok results :: rest) st).2.2.total_imported =
            st.total_imported + results.length ∧
        (innerLoop rc (.ok results :: rest) st).2.2.offset =
            st.offset + results.length) := by
  obtain ⟨_, l, hreq, hge, hhead⟩ :=
    outerLoop_spec (trace.length + 1) trace (dlStart existing)
  have hreq' : (outerLoop (trace.length + 1) trace (dlStart existing)).requests = l := by
    simpa [dlStart] using hreq
  refine ⟨?_, ?_, ?_⟩
  · intro hne
    show (outerLoop (trace.length + 1) trace (dlStart existing)).requests.head? =
      some existing.length
    rw [hreq']
    exact hhead (Nat.succ_pos _) hne
  · intro q hq
    have hq' : q ∈ l := by
      rw [show (download_2024_crime_data_robust existing trace).requests =
        (outerLoop (trace.length + 1) trace (dlStart existing)).requests from rfl,
        hreq'] at hq
      exact hq
    exact hge q hq'
  · intro rc st results rest hrc hres
    have hemp : results.isEmpty = false := by
      simpa [List.isEmpty_iff] using hres
    by_cases hshort : results.length < batch_size <;>
      simp [innerLoop, hrc, hemp, hshort]

/-- Witness for C7: restarting over a store holding one record, the first
request is at offset 1. -/
theorem resume_from_count_witness :
    (download_2024_crime_data_robust [sampleRaw] [.ok []]).requests.head? =
      some 1 :=
  (resume_from_count [sampleRaw] [.ok []]).1 (by decide)

end NycCrime
